import Mathlib

/-!
# sqlx_demo: a shallow embedding of `main.go`

The program is a collection of demonstration functions over a database handle.
The database, the transaction handle and the result cursors are external: they
are modelled as oracles (records of response functions), and every function of
the program returns, next to its Go result, the list of calls it made on them.
Printing is not modelled.
-/

namespace SqlxDemo

/-! ## Data model -/

/-- A non-nil Go `error`. A Go result of type `error` is an `Option GoError`, `none`
standing for `nil`. The first two are the failures of the statement expansion;
`New text` is `errors.New(text)`; `External text` is an error produced by the database
client. -/
inductive GoError where
  | EmptyListError
  | ArityMismatchError
  | New (text : String)
  | External (text : String)
  deriving DecidableEq

deriving instance DecidableEq for Except

/-- The record `sqlxUser` (main.go 37-41). Go `int` fields are taken as integers; the
program does no arithmetic on them. -/
structure sqlxUser where
  Id : Int
  Age : Int
  Name : String
  deriving DecidableEq

/-- A scalar bind value: the program binds only `int` and `string` values. -/
inductive Scalar where
  | int (n : Int)
  | str (s : String)
  deriving DecidableEq

/-- An argument of the statement expansion: a scalar or a sequence of scalars. -/
inductive Arg where
  | scalar (v : Scalar)
  | list (vs : List Scalar)
  deriving DecidableEq

/-- A Go value handed to `sqlx.In` as `interface{}`: a scalar, a slice of scalars (`[]int`),
or a `sqlxUser`, which implements `driver.Valuer`. -/
inductive Iface where
  | scalar (v : Scalar)
  | list (vs : List Scalar)
  | user (u : sqlxUser)
  deriving DecidableEq

/-- The method `sqlxUser.Value` (main.go 43-45): a user is rendered as the slice
`[Name, Age]`; it never fails. -/
def sqlxUser.Value (u : sqlxUser) : List Scalar :=
  [Scalar.str u.Name, Scalar.int u.Age]

/-- The argument that the expansion sees for a Go value: a value implementing
`driver.Valuer` is replaced by the result of its `Value()` (comment at main.go 278). -/
def Iface.toArg : Iface → Arg
  | Iface.scalar v => Arg.scalar v
  | Iface.list vs => Arg.list vs
  | Iface.user u => Arg.list u.Value

/-- A call made on the database handle `db` that sends a statement. -/
inductive Call where
  | Exec (query : String) (args : List Scalar)
  | Select (query : String) (args : List Scalar)
  deriving DecidableEq

/-- The responses of the database handle `db`. `Exec` answers with its error only (the
program discards the `sql.Result` of every `db.Exec`); `Select` answers with the rows
stored in the destination and its error. -/
structure DB where
  Rebind : String → String
  Exec : String → List Scalar → Option GoError
  Select : String → List Scalar → List sqlxUser × Option GoError

/-- The number of `?` placeholders of a statement. -/
def countPlaceholders (s : String) : Nat :=
  s.data.count '?'

/-- The type of `sqlx.In` as the program calls it: from a template and its arguments to
the triple `(query, args, err)`. -/
abbrev InFn : Type :=
  String → List Iface → String × List Scalar × Option GoError

/-! ## The statement expansion -/

/-- The text `?,?,...,?` of `k` single-value placeholders joined by a comma. -/
def placeholders (k : Nat) : List Char :=
  [','].intercalate (List.replicate k ['?'])

/-- Modelled from the spec: the scan of `expand` (section 4.1), absent from src/ (it is the
library function `sqlx.In`). The template is read left to right and each placeholder
takes the next argument: a sequence of length `k` replaces the placeholder by `k`
placeholders joined by a comma and appends its `k` elements to the flat arguments; a
scalar keeps the placeholder and is appended. A placeholder with no argument left is
kept; `expand` rejects such inputs before scanning. -/
def expandChars : List Char → List Arg → List Char × List Scalar
  | [], _ => ([], [])
  | c :: cs, args =>
    if c = '?' then
      match args with
      | [] => ('?' :: (expandChars cs []).1, (expandChars cs []).2)
      | Arg.scalar v :: rest => ('?' :: (expandChars cs rest).1, v :: (expandChars cs rest).2)
      | Arg.list vs :: rest =>
        (placeholders vs.length ++ (expandChars cs rest).1, vs ++ (expandChars cs rest).2)
    else (c :: (expandChars cs args).1, (expandChars cs args).2)

/-- Whether an argument is an empty sequence. -/
def Arg.isEmptyList : Arg → Bool
  | Arg.list [] => true
  | _ => false

/-- Modelled from the spec: `expand` (section 4.1), absent from src/ (it is the library
function `sqlx.In`). It fails with `ArityMismatchError` when the number of placeholders of
the template differs from the number of arguments, each multi-value argument counting as
one, "before expansion"; it fails with `EmptyListError` when a multi-value argument is an
empty sequence; otherwise it returns the expanded template and the flat arguments. Where
both failures apply the spec names both errors; the arity, which is known before any
argument is looked at, is checked first. -/
def expand (template : String) (args : List Arg) : Except GoError (String × List Scalar) :=
  if countPlaceholders template ≠ args.length then Except.error GoError.ArityMismatchError
  else if args.any Arg.isEmptyList then Except.error GoError.EmptyListError
  else Except.ok (String.mk (expandChars template.data args).1,
    (expandChars template.data args).2)

/-- Modelled from the spec: the library function `sqlx.In`, absent from src/, as `expand`
on the arguments seen through `Iface.toArg`, with the Go result shape: on failure the
query and the arguments are the zero values `""` and `nil`. -/
def sqlxIn : InFn := fun template args =>
  match expand template (args.map Iface.toArg) with
  | Except.ok (query, flat) => (query, flat, none)
  | Except.error err => ("", [], some err)

/-- The number of single-value placeholders, and of flat arguments, that an argument
stands for after expansion. -/
def Arg.weight : Arg → Nat
  | Arg.scalar _ => 1
  | Arg.list vs => vs.length

/-! ## BatchInsertUsers (main.go 250-271) -/

/-- The `for _, u := range users` loop of `BatchInsertUsers` (main.go 256-261), started
from the slices built so far. An element of `[]*sqlxUser` is a pointer: `none` is the nil
pointer, whose dereference `u.Name` panics (result `none`). -/
def BatchInsertUsers.loop :
    List (Option sqlxUser) → List String × List Scalar → Option (List String × List Scalar)
  | [], acc => some acc
  | none :: _, _ => none
  | some u :: us, (valueStrings, valueArgs) =>
    BatchInsertUsers.loop us
      (valueStrings ++ ["(?,?)"], (valueArgs ++ [Scalar.str u.Name]) ++ [Scalar.int u.Age])

/-- The statement of `BatchInsertUsers` (main.go 263-264): `fmt.Sprintf` of the fixed
text with `strings.Join(valueStrings, ",")`. -/
def BatchInsertUsers.stmt (valueStrings : List String) : String :=
  "insert into mysql_demo_user (name, age) values" ++ ",".intercalate valueStrings

/-- The function `BatchInsertUsers` (main.go 250-271): the calls made on `db` and the
returned error; `none` when the loop panics on a nil pointer. The error of `db.Exec` is
returned on both branches of the `if err != nil`, which only prints. -/
def BatchInsertUsers (db : DB) (users : List (Option sqlxUser)) :
    Option (List Call × Option GoError) :=
  match BatchInsertUsers.loop users ([], []) with
  | none => none
  | some (valueStrings, valueArgs) =>
    let stmt := BatchInsertUsers.stmt valueStrings
    let err := db.Exec stmt valueArgs
    some ([Call.Exec stmt valueArgs], err)

/-- The bind values of one user, in the order the loop appends them. -/
def userArgs (u : sqlxUser) : List Scalar :=
  [Scalar.str u.Name, Scalar.int u.Age]

/-! ## BatchInsertUsers2 (main.go 275-289) -/

/-- The template of `BatchInsertUsers2` (main.go 277). -/
def BatchInsertUsers2.template : String :=
  "insert into mysql_demo_user (name, age) values (?), (?), (?)"

/-- The function `BatchInsertUsers2` (main.go 275-289): the calls made on `db` and the
returned error. The error of `sqlx.In` is bound to `_` and never tested: `db.Exec` is
called with whatever query and arguments `sqlx.In` returned. -/
def BatchInsertUsers2 (sqlIn : InFn) (db : DB) (users : List Iface) :
    List Call × Option GoError :=
  match sqlIn BatchInsertUsers2.template users with
  | (query, args, _) =>
    match db.Exec query args with
    | some err => ([Call.Exec query args], some err)
    | none => ([Call.Exec query args], none)

/-! ## QueryByIds (main.go 305-317) -/

/-- The template of `QueryByIds` (main.go 307). -/
def QueryByIds.template : String :=
  "select name, age from mysql_demo_user where id in (?)"

/-- The function `QueryByIds` (main.go 305-317): the calls made on `db`, and the named
results `users` and `err`. When `sqlx.In` fails the function returns before `db.Select`,
with `users` still nil. -/
def QueryByIds (sqlIn : InFn) (db : DB) (ids : List Int) :
    List Call × List sqlxUser × Option GoError :=
  match sqlIn QueryByIds.template [Iface.list (ids.map Scalar.int)] with
  | (_, _, some err) => ([], [], some err)
  | (query, args, none) =>
    let query := db.Rebind query
    ([Call.Select query args], (db.Select query args).1, (db.Select query args).2)

/-! ## QueryAndOrderByIds (main.go 322-341) -/

/-- The verb `%d` of `fmt.Sprintf` on an `int`: the decimal rendering, with a leading `-`
for a negative number. -/
def sprintfD (id : Int) : String :=
  toString id

/-- The loop of `QueryAndOrderByIds` (main.go 324-327), started from the slice built so
far: the decimal rendering of each id is appended. -/
def QueryAndOrderByIds.loop : List Int → List String → List String
  | [], strIds => strIds
  | id :: ids, strIds => QueryAndOrderByIds.loop ids (strIds ++ [sprintfD id])

/-- The template of `QueryAndOrderByIds` (main.go 329-330), a raw string with a line
break. -/
def QueryAndOrderByIds.template : String :=
  "select name, age from mysql_demo_user where id in (?) \n\t\torder by FIND_IN_SET(id,?)"

/-- The arguments that `QueryAndOrderByIds` hands to `sqlx.In` (main.go 330): `ids` and
`strings.Join(strIds, ",")`. -/
def QueryAndOrderByIds.inArgs (ids : List Int) : List Iface :=
  [Iface.list (ids.map Scalar.int),
   Iface.scalar (Scalar.str (",".intercalate (QueryAndOrderByIds.loop ids [])))]

/-- The function `QueryAndOrderByIds` (main.go 322-341): the calls made on `db`, and the
named results `users` and `err`. -/
def QueryAndOrderByIds (sqlIn : InFn) (db : DB) (ids : List Int) :
    List Call × List sqlxUser × Option GoError :=
  match sqlIn QueryAndOrderByIds.template (QueryAndOrderByIds.inArgs ids) with
  | (_, _, some err) => ([], [], some err)
  | (query, args, none) =>
    let query := db.Rebind query
    ([Call.Select query args], (db.Select query args).1, (db.Select query args).2)

/-- The comma-separated fields of a text: the text is cut at every `,`. -/
def splitComma : List Char → List (List Char)
  | [] => [[]]
  | c :: cs =>
    if c = ',' then [] :: splitComma cs
    else
      match splitComma cs with
      | [] => [[c]]
      | f :: fs => (c :: f) :: fs

/-- The ordering expression `FIND_IN_SET(str, strlist)` of the database: the 1-based
position of the first comma-separated field of `strlist` equal to `str`, and 0 when there
is none or `strlist` is empty. -/
def FIND_IN_SET (str strlist : String) : Nat :=
  if strlist = "" then 0
  else if str.data ∈ splitComma strlist.data then (splitComma strlist.data).indexOf str.data + 1
  else 0

/-- One step of reading a decimal numeral from the left: the value read so far and the
next digit. -/
def digitValue (a : Nat) (c : Char) : Nat :=
  10 * a + (c.toNat - 48)

/-! ## transactionDemo2 (main.go 188-243) -/

/-- A call made on the transaction handle `tx`. -/
inductive TxCall where
  | Exec (query : String) (args : List Scalar)
  | Commit
  | Rollback
  deriving DecidableEq

/-- The response of a `sql.Result`: `RowsAffected()` gives a count or a non-nil error. -/
structure SqlResult where
  RowsAffected : Except GoError Int

/-- The responses of the transaction handle `tx`. The two `tx.Exec` calls of the program
differ in their argument (21 and 28), so a response per statement and arguments leaves
the two answers independent. -/
structure Tx where
  Exec : String → List Scalar → Except GoError SqlResult
  Commit : Option GoError
  Rollback : Option GoError

/-- The statement `sqlStr1` (main.go 208). -/
def transactionDemo2.sqlStr1 : String :=
  "update mysql_demo_user set age = 2 where id = ?"

/-- The statement `sqlStr2` (main.go 226). -/
def transactionDemo2.sqlStr2 : String :=
  "update mysql_demo_user set age = 2 where id = ?"

/-- The body of `transactionDemo2` after the `defer` (main.go 208-242): the calls made on
`tx` and the value that the `return` reached stores in the named result `err`. -/
def transactionDemo2.body (tx : Tx) : List TxCall × Option GoError :=
  let call1 := TxCall.Exec transactionDemo2.sqlStr1 [Scalar.int 21]
  let call2 := TxCall.Exec transactionDemo2.sqlStr2 [Scalar.int 28]
  match tx.Exec transactionDemo2.sqlStr1 [Scalar.int 21] with
  | Except.error err => ([call1], some err)
  | Except.ok ret1 =>
    match ret1.RowsAffected with
    | Except.error err => ([call1], some err)
    | Except.ok n =>
      if n ≠ 1 then ([call1], some (GoError.New "RowsAffected != 1, exec1 failed."))
      else
        match tx.Exec transactionDemo2.sqlStr2 [Scalar.int 28] with
        | Except.error err => ([call1, call2], some err)
        | Except.ok ret2 =>
          match ret2.RowsAffected with
          | Except.error err => ([call1, call2], some err)
          | Except.ok m =>
            if m ≠ 1 then
              ([call1, call2], some (GoError.New "RowsAffected != 1, exec2 failed."))
            else ([call1, call2], none)

/-- The deferred function of `transactionDemo2` (main.go 195-206) when no panic is being
recovered: with a non-nil `err` it rolls back and leaves `err` as it is; with a nil `err`
it commits and stores the result of `Commit` in `err`. -/
def transactionDemo2.deferred (tx : Tx) (err : Option GoError) :
    List TxCall × Option GoError :=
  match err with
  | some e => ([TxCall.Rollback], some e)
  | none => ([TxCall.Commit], tx.Commit)

/-- The function `transactionDemo2` (main.go 188-243), given the answer of `db.Beginx()`:
the calls made on `tx` and the returned error. -/
def transactionDemo2 (beginx : Except GoError Tx) : List TxCall × Option GoError :=
  match beginx with
  | Except.error err => ([], some err)
  | Except.ok tx =>
    ((transactionDemo2.body tx).1 ++ (transactionDemo2.deferred tx (transactionDemo2.body tx).2).1,
     (transactionDemo2.deferred tx (transactionDemo2.body tx).2).2)

/-! ## namedQuery (main.go 145-185) -/

/-- The argument of a `db.NamedQuery` call: a map or a struct. -/
inductive NamedArg where
  | map (entries : List (String × Scalar))
  | struct (u : sqlxUser)
  deriving DecidableEq

/-- A result cursor `*sqlx.Rows`: the outcome of `StructScan` for each row on which
`Next()` answers true, in order; after them `Next()` answers false. -/
structure Rows where
  scans : List (Except GoError sqlxUser)

/-- The responses of the database handle to `db.NamedQuery`. -/
structure NamedDB where
  NamedQuery : String → NamedArg → Except GoError Rows

/-- What happens to a cursor: it is opened by a successful `db.NamedQuery` or closed by
`rows.Close()`. Cursors are numbered by the `db.NamedQuery` call that opens them. -/
inductive CursorEvent where
  | Open (cursor : Nat)
  | Close (cursor : Nat)
  deriving DecidableEq

/-- The statement `sqlStr` (main.go 146). -/
def namedQuery.sqlStr : String :=
  "select * from mysql_demo_user where name = :name"

/-- A loop `for rows.Next() { ... StructScan ... }` (main.go 156-164 and 176-184): `true`
when `Next()` ends it, `false` when a scan error makes the function return. -/
def namedQuery.scanLoop : List (Except GoError sqlxUser) → Bool
  | [] => true
  | Except.error _ :: _ => false
  | Except.ok _ :: rest => namedQuery.scanLoop rest

/-- The deferred calls run at return, the last registered first. A `defer rows.Close()`
evaluates its receiver `rows` when the `defer` statement is executed, so each entry is the
cursor that `rows` held at that moment. -/
def namedQuery.runDeferred (deferred : List Nat) : List CursorEvent :=
  deferred.map CursorEvent.Close

/-- The function `namedQuery` (main.go 145-185): the events on its cursors, in order. The
list of deferred calls is kept with the last registered first. -/
def namedQuery (db : NamedDB) : List CursorEvent :=
  match db.NamedQuery namedQuery.sqlStr (NamedArg.map [("name", Scalar.str "沙河娜扎")]) with
  | Except.error _ => []
  | Except.ok rows =>
    let deferred := [1]
    if namedQuery.scanLoop rows.scans = false then
      [CursorEvent.Open 1] ++ namedQuery.runDeferred deferred
    else
      let u : sqlxUser := { Id := 0, Age := 0, Name := "沙河小王子" }
      match db.NamedQuery namedQuery.sqlStr (NamedArg.struct u) with
      | Except.error _ => [CursorEvent.Open 1] ++ namedQuery.runDeferred deferred
      | Except.ok rows2 =>
        let deferred2 := 2 :: deferred
        if namedQuery.scanLoop rows2.scans = false then
          [CursorEvent.Open 1, CursorEvent.Open 2] ++ namedQuery.runDeferred deferred2
        else
          [CursorEvent.Open 1, CursorEvent.Open 2] ++ namedQuery.runDeferred deferred2

/-! ## Lemmas on strings -/

theorem countPlaceholders_append (s t : String) :
    countPlaceholders (s ++ t) = countPlaceholders s + countPlaceholders t := by
  simp [countPlaceholders, String.data_append, List.count_append]

theorem countPlaceholders_intercalate_go (sep : String) (xs : List String) (acc : String) :
    countPlaceholders (String.intercalate.go acc sep xs)
      = countPlaceholders acc + xs.length * countPlaceholders sep
        + (xs.map countPlaceholders).sum := by
  induction xs generalizing acc with
  | nil => simp [String.intercalate.go]
  | cons x xs ih =>
    simp only [String.intercalate.go, ih, countPlaceholders_append, List.length_cons,
      List.map_cons, List.sum_cons]
    ring

theorem countPlaceholders_intercalate (sep : String) (xs : List String) :
    countPlaceholders (sep.intercalate xs)
      = (xs.length - 1) * countPlaceholders sep + (xs.map countPlaceholders).sum := by
  cases xs with
  | nil => simp [String.intercalate, countPlaceholders]
  | cons x xs =>
    simp only [String.intercalate, countPlaceholders_intercalate_go, List.length_cons,
      List.map_cons, List.sum_cons, Nat.add_sub_cancel]
    ring

/-! ## Lemmas on BatchInsertUsers -/

theorem BatchInsertUsers.loop_map_some (users : List sqlxUser) (vs : List String)
    (va : List Scalar) :
    BatchInsertUsers.loop (users.map some) (vs, va)
      = some (vs ++ List.replicate users.length "(?,?)", va ++ users.flatMap userArgs) := by
  induction users generalizing vs va with
  | nil => simp [BatchInsertUsers.loop]
  | cons u us ih =>
    simp only [List.map_cons, BatchInsertUsers.loop, ih, List.length_cons,
      List.replicate_succ, List.flatMap_cons, userArgs, List.append_assoc,
      List.singleton_append, List.cons_append, List.nil_append]

theorem BatchInsertUsers.loop_total (users : List (Option sqlxUser))
    (acc : List String × List Scalar) :
    (∃ r, BatchInsertUsers.loop users acc = some r)
      ∨ (none ∈ users ∧ BatchInsertUsers.loop users acc = none) := by
  induction users generalizing acc with
  | nil => exact Or.inl ⟨acc, rfl⟩
  | cons u us ih =>
    cases u with
    | none => exact Or.inr ⟨List.mem_cons_self _ _, rfl⟩
    | some v =>
      obtain ⟨vs, va⟩ := acc
      rcases ih (vs ++ ["(?,?)"], (va ++ [Scalar.str v.Name]) ++ [Scalar.int v.Age]) with
        ⟨r, hr⟩ | ⟨hmem, hr⟩
      · exact Or.inl ⟨r, by simpa [BatchInsertUsers.loop] using hr⟩
      · exact Or.inr ⟨List.mem_cons_of_mem _ hmem, by simpa [BatchInsertUsers.loop] using hr⟩

theorem flatMap_userArgs_length (users : List sqlxUser) :
    (users.flatMap userArgs).length = 2 * users.length := by
  induction users with
  | nil => rfl
  | cons u us ih => simp [List.flatMap_cons, userArgs, ih]; omega

theorem flatMap_userArgs_get (users : List sqlxUser) (i : Nat) (h : i < users.length) :
    (users.flatMap userArgs)[2 * i]? = some (Scalar.str users[i].Name)
      ∧ (users.flatMap userArgs)[2 * i + 1]? = some (Scalar.int users[i].Age) := by
  induction users generalizing i with
  | nil => simp at h
  | cons u us ih =>
    cases i with
    | zero => simp [List.flatMap_cons, userArgs]
    | succ j =>
      have hj : j < us.length := by simpa using h
      have e1 : 2 * (j + 1) = (2 * j) + 1 + 1 := by ring
      have e2 : 2 * (j + 1) + 1 = (2 * j + 1) + 1 + 1 := by ring
      simp only [List.flatMap_cons, userArgs, List.cons_append, List.nil_append, e1, e2,
        List.getElem?_cons_succ, List.getElem_cons_succ]
      exact ih j hj

theorem countPlaceholders_stmt_replicate (n : Nat) :
    countPlaceholders (BatchInsertUsers.stmt (List.replicate n "(?,?)")) = 2 * n := by
  have h1 : countPlaceholders "insert into mysql_demo_user (name, age) values" = 0 := by decide
  have h2 : countPlaceholders "," = 0 := by decide
  have h3 : countPlaceholders "(?,?)" = 2 := by decide
  simp [BatchInsertUsers.stmt, countPlaceholders_append, countPlaceholders_intercalate, h1, h2,
    h3, List.map_replicate, List.sum_replicate]
  ring

/-! ## Lemmas on the expansion -/

theorem placeholders_zero : placeholders 0 = [] := rfl

theorem placeholders_succ (k : Nat) :
    placeholders (k + 1) = '?' :: (List.replicate k [',', '?']).flatten := by
  induction k with
  | zero => rfl
  | succ k ih =>
    have h : placeholders (k + 2) = '?' :: ',' :: placeholders (k + 1) := by
      simp [placeholders, List.intercalate, List.replicate_succ, List.intersperse]
    rw [h, ih]
    simp [List.replicate_succ]

theorem count_placeholders (k : Nat) : (placeholders k).count '?' = k := by
  cases k with
  | zero => rfl
  | succ k =>
    rw [placeholders_succ]
    induction k with
    | zero => rfl
    | succ k ih =>
      simp only [List.replicate_succ, List.flatten_cons, List.cons_append, List.nil_append]
      rw [List.count_cons, List.count_cons, List.count_cons] at *
      simp at *
      omega

theorem intercalate_go_replicate (k : Nat) (acc : String) :
    (String.intercalate.go acc "," (List.replicate k "?")).data
      = acc.data ++ (List.replicate k [',', '?']).flatten := by
  induction k generalizing acc with
  | zero => simp [String.intercalate.go]
  | succ k ih =>
    simp only [List.replicate_succ, String.intercalate.go, ih, String.data_append,
      List.flatten_cons, List.append_assoc]
    rfl

theorem intercalate_replicate_data (k : Nat) :
    (",".intercalate (List.replicate k "?")).data = placeholders k := by
  cases k with
  | zero => rfl
  | succ k =>
    rw [placeholders_succ]
    simp only [List.replicate_succ, String.intercalate, intercalate_go_replicate]
    rfl

theorem expandChars_no_placeholder (cs : List Char) (h : '?' ∉ cs) (args : List Arg) :
    expandChars cs args = (cs, []) := by
  induction cs with
  | nil => rfl
  | cons c cs ih =>
    have hc : c ≠ '?' := fun e => h (by simp [e])
    have hcs : '?' ∉ cs := fun e => h (List.mem_cons_of_mem _ e)
    simp [expandChars, hc, ih hcs]

theorem expandChars_append (pre rest : List Char) (h : '?' ∉ pre) (args : List Arg) :
    expandChars (pre ++ rest) args
      = (pre ++ (expandChars rest args).1, (expandChars rest args).2) := by
  induction pre with
  | nil => rfl
  | cons c cs ih =>
    have hc : c ≠ '?' := fun e => h (by simp [e])
    have hcs : '?' ∉ cs := fun e => h (List.mem_cons_of_mem _ e)
    simp [expandChars, hc, ih hcs]

theorem expandChars_counts (cs : List Char) (args : List Arg)
    (h : cs.count '?' = args.length) :
    (expandChars cs args).1.count '?' = (args.map Arg.weight).sum
      ∧ (expandChars cs args).2.length = (args.map Arg.weight).sum := by
  induction cs generalizing args with
  | nil =>
    cases args with
    | nil => simp [expandChars]
    | cons a as => simp at h
  | cons c cs ih =>
    by_cases hc : c = '?'
    · subst hc
      cases args with
      | nil => simp at h
      | cons a as =>
        have h2 : cs.count '?' = as.length := by simpa using h
        obtain ⟨i1, i2⟩ := ih as h2
        cases a with
        | scalar v => simp [expandChars, Arg.weight, i1, i2]; omega
        | list vs =>
          simp [expandChars, Arg.weight, i1, i2, List.count_append, count_placeholders]
    · have h2 : cs.count '?' = args.length := by
        rw [List.count_cons_of_ne (Ne.symm hc)] at h
        exact h
      obtain ⟨i1, i2⟩ := ih args h2
      simp [expandChars, hc, i1, i2, List.count_cons_of_ne (Ne.symm hc)]

theorem expand_ok_counts (template : String) (args : List Arg)
    (h : countPlaceholders template = args.length) (he : args.any Arg.isEmptyList = false) :
    ∃ q a, expand template args = Except.ok (q, a)
      ∧ countPlaceholders q = (args.map Arg.weight).sum
      ∧ a.length = (args.map Arg.weight).sum := by
  refine ⟨String.mk (expandChars template.data args).1, (expandChars template.data args).2,
    ?_, ?_, ?_⟩
  · simp [expand, h, he]
  · exact (expandChars_counts template.data args h).1
  · exact (expandChars_counts template.data args h).2

theorem expand_single (pre post : String) (vs : List Scalar)
    (hpre : '?' ∉ pre.data) (hpost : '?' ∉ post.data) (hvs : vs ≠ []) :
    expand (pre ++ "?" ++ post) [Arg.list vs]
      = Except.ok (pre ++ ",".intercalate (List.replicate vs.length "?") ++ post, vs) := by
  have hdata : (pre ++ "?" ++ post).data = pre.data ++ '?' :: post.data := by
    simp [String.data_append]
  have hcount : countPlaceholders (pre ++ "?" ++ post) = 1 := by
    simp [countPlaceholders, hdata, List.count_append, List.count_eq_zero_of_not_mem hpre,
      List.count_eq_zero_of_not_mem hpost]
  have hne : Arg.isEmptyList (Arg.list vs) = false := by
    cases vs with
    | nil => exact absurd rfl hvs
    | cons v vs => rfl
  have hscan : expandChars (pre.data ++ '?' :: post.data) [Arg.list vs]
      = (pre.data ++ (placeholders vs.length ++ post.data), vs) := by
    rw [expandChars_append _ _ hpre]
    simp [expandChars, expandChars_no_placeholder _ hpost]
  simp only [expand, hcount, List.length_singleton, ne_eq, not_true_eq_false, if_false,
    List.any_cons, hne, List.any_nil, Bool.or_false, hdata, hscan, Bool.false_eq_true]
  congr 2
  apply String.ext
  simp [String.data_append, intercalate_replicate_data]

/-! ## The claims on BatchInsertUsers -/

/-- C1: for every list of `n` users, `BatchInsertUsers` sends, in one `Exec`, the
statement made of the fixed text followed by `n` copies of `(?,?)` joined by `,`, with an
argument list of `2n` values whose elements `2i` and `2i+1` are the name and the age of
user `i`; the statement has exactly `2n` placeholders. -/
theorem C1_BatchInsertUsers_statement_and_args (db : DB) (users : List sqlxUser) :
    ∃ stmt args,
      BatchInsertUsers db (users.map some) = some ([Call.Exec stmt args], db.Exec stmt args)
      ∧ stmt = "insert into mysql_demo_user (name, age) values"
          ++ ",".intercalate (List.replicate users.length "(?,?)")
      ∧ args.length = 2 * users.length
      ∧ (∀ i : Fin users.length,
          args[2 * i.val]? = some (Scalar.str (users.get i).Name)
          ∧ args[2 * i.val + 1]? = some (Scalar.int (users.get i).Age))
      ∧ countPlaceholders stmt = 2 * users.length
      ∧ countPlaceholders stmt = args.length := by
  refine ⟨BatchInsertUsers.stmt (List.replicate users.length "(?,?)"),
    users.flatMap userArgs, ?_, rfl, flatMap_userArgs_length users, ?_,
    countPlaceholders_stmt_replicate _, ?_⟩
  · simp [BatchInsertUsers, BatchInsertUsers.loop_map_some]
  · intro i
    exact flatMap_userArgs_get users i.val i.isLt
  · rw [countPlaceholders_stmt_replicate, flatMap_userArgs_length]

/-- C10: for the empty list `BatchInsertUsers` sends the statement with no value tuple
and no argument and returns what `Exec` returns; for every list of users the function
makes exactly one `Exec` call and returns its result, unless a nil pointer in the list
makes it panic. -/
theorem C10_BatchInsertUsers_returns_exec_result (db : DB) :
    BatchInsertUsers db []
        = some ([Call.Exec "insert into mysql_demo_user (name, age) values" []],
            db.Exec "insert into mysql_demo_user (name, age) values" [])
      ∧ ∀ users : List (Option sqlxUser),
          (∃ stmt args,
            BatchInsertUsers db users = some ([Call.Exec stmt args], db.Exec stmt args))
          ∨ (none ∈ users ∧ BatchInsertUsers db users = none) := by
  constructor
  · have h : BatchInsertUsers.stmt [] = "insert into mysql_demo_user (name, age) values" := by
      decide
    simp [BatchInsertUsers, BatchInsertUsers.loop, h]
  · intro users
    rcases BatchInsertUsers.loop_total users ([], []) with ⟨r, hr⟩ | ⟨hmem, hr⟩
    · left
      exact ⟨BatchInsertUsers.stmt r.1, r.2, by simp [BatchInsertUsers, hr]⟩
    · right
      exact ⟨hmem, by simp [BatchInsertUsers, hr]⟩

/-! ## The claims on the expansion -/

theorem sum_weight_one_list (before after vs : List Scalar) :
    ((before.map Arg.scalar ++ Arg.list vs :: after.map Arg.scalar).map Arg.weight).sum
      = before.length + vs.length + after.length := by
  have h : ∀ l : List Scalar, ((l.map Arg.scalar).map Arg.weight).sum = l.length := by
    intro l
    induction l with
    | nil => rfl
    | cons x xs ih =>
      simp only [List.map_cons, List.sum_cons, ih, Arg.weight, List.length_cons]
      omega
  simp only [List.map_append, List.map_cons, List.sum_append, List.sum_cons, h, Arg.weight]
  omega

theorem any_isEmptyList_one_list (before after vs : List Scalar) (hvs : vs ≠ []) :
    (before.map Arg.scalar ++ Arg.list vs :: after.map Arg.scalar).any Arg.isEmptyList
      = false := by
  have h : ∀ l : List Scalar, (l.map Arg.scalar).any Arg.isEmptyList = false := by
    intro l
    induction l with
    | nil => rfl
    | cons x xs ih => simp [Arg.isEmptyList]
  have hl : Arg.isEmptyList (Arg.list vs) = false := by
    cases vs with
    | nil => exact absurd rfl hvs
    | cons v vs => rfl
  have h1 := h before
  have h2 := h after
  simp only [List.any_append, List.any_cons, hl, Bool.false_or] at *
  simp [h1, h2]

theorem sqlxIn_of_expand_ok {template : String} {args : List Iface} {q : String}
    {a : List Scalar} (h : expand template (args.map Iface.toArg) = Except.ok (q, a)) :
    sqlxIn template args = (q, a, none) := by
  simp [sqlxIn, h]

theorem sqlxIn_of_expand_error {template : String} {args : List Iface} {e : GoError}
    (h : expand template (args.map Iface.toArg) = Except.error e) :
    sqlxIn template args = ("", [], some e) := by
  simp [sqlxIn, h]

theorem QueryByIds_of_ok {sqlIn : InFn} {ids : List Int} {q : String} {a : List Scalar}
    (db : DB) (h : sqlIn QueryByIds.template [Iface.list (ids.map Scalar.int)] = (q, a, none)) :
    QueryByIds sqlIn db ids
      = ([Call.Select (db.Rebind q) a], (db.Select (db.Rebind q) a).1,
          (db.Select (db.Rebind q) a).2) := by
  simp [QueryByIds, h]

theorem QueryByIds_of_error {sqlIn : InFn} {ids : List Int} {q : String} {a : List Scalar}
    {e : GoError} (db : DB)
    (h : sqlIn QueryByIds.template [Iface.list (ids.map Scalar.int)] = (q, a, some e)) :
    QueryByIds sqlIn db ids = ([], [], some e) := by
  simp [QueryByIds, h]

theorem QueryAndOrderByIds_of_ok {sqlIn : InFn} {ids : List Int} {q : String}
    {a : List Scalar} (db : DB)
    (h : sqlIn QueryAndOrderByIds.template (QueryAndOrderByIds.inArgs ids) = (q, a, none)) :
    QueryAndOrderByIds sqlIn db ids
      = ([Call.Select (db.Rebind q) a], (db.Select (db.Rebind q) a).1,
          (db.Select (db.Rebind q) a).2) := by
  simp [QueryAndOrderByIds, h]

theorem QueryAndOrderByIds_of_error {sqlIn : InFn} {ids : List Int} {q : String}
    {a : List Scalar} {e : GoError} (db : DB)
    (h : sqlIn QueryAndOrderByIds.template (QueryAndOrderByIds.inArgs ids) = (q, a, some e)) :
    QueryAndOrderByIds sqlIn db ids = ([], [], some e) := by
  simp [QueryAndOrderByIds, h]

theorem map_int_ne_nil {ids : List Int} (h : ids ≠ []) : ids.map Scalar.int ≠ [] := by
  simpa using h

/-- C3: for a non-empty list of `n` values, the expansion of a template with `m`
placeholders, one of which takes the list and the others scalars, succeeds with exactly
`m - 1 + n` placeholders and `m - 1 + n` flat arguments; the expansion in `QueryByIds`
yields `n` and `n`, the expansion in `QueryAndOrderByIds` yields `n + 1` and `n + 1`. -/
theorem C3_expansion_counts :
    (∀ (template : String) (before after vs : List Scalar) (m : Nat),
        vs ≠ [] →
        countPlaceholders template = m →
        (before.map Arg.scalar ++ Arg.list vs :: after.map Arg.scalar).length = m →
        ∃ q a,
          expand template (before.map Arg.scalar ++ Arg.list vs :: after.map Arg.scalar)
            = Except.ok (q, a)
          ∧ countPlaceholders q = m - 1 + vs.length
          ∧ a.length = m - 1 + vs.length)
    ∧ (∀ (db : DB) (ids : List Int), ids ≠ [] →
        ∃ q a,
          sqlxIn QueryByIds.template [Iface.list (ids.map Scalar.int)] = (q, a, none)
          ∧ countPlaceholders q = ids.length
          ∧ a.length = ids.length
          ∧ (QueryByIds sqlxIn db ids).1 = [Call.Select (db.Rebind q) a])
    ∧ (∀ (db : DB) (ids : List Int), ids ≠ [] →
        ∃ q a,
          sqlxIn QueryAndOrderByIds.template (QueryAndOrderByIds.inArgs ids) = (q, a, none)
          ∧ countPlaceholders q = ids.length + 1
          ∧ a.length = ids.length + 1
          ∧ (QueryAndOrderByIds sqlxIn db ids).1 = [Call.Select (db.Rebind q) a]) := by
  have gen : ∀ (template : String) (before after vs : List Scalar) (m : Nat),
      vs ≠ [] → countPlaceholders template = m →
      (before.map Arg.scalar ++ Arg.list vs :: after.map Arg.scalar).length = m →
      ∃ q a,
        expand template (before.map Arg.scalar ++ Arg.list vs :: after.map Arg.scalar)
          = Except.ok (q, a)
        ∧ countPlaceholders q = m - 1 + vs.length
        ∧ a.length = m - 1 + vs.length := by
    intro template before after vs m hvs hm hlen
    obtain ⟨q, a, hq, hc, ha⟩ := expand_ok_counts template _ (hm.trans hlen.symm)
      (any_isEmptyList_one_list before after vs hvs)
    rw [sum_weight_one_list] at hc ha
    have hm2 : m = before.length + 1 + after.length := by
      rw [← hlen]; simp; omega
    exact ⟨q, a, hq, by omega, by omega⟩
  refine ⟨gen, ?_, ?_⟩
  · intro db ids hids
    obtain ⟨q, a, hq, hc, ha⟩ := gen QueryByIds.template [] [] (ids.map Scalar.int) 1
      (map_int_ne_nil hids) (by decide) rfl
    have hin : sqlxIn QueryByIds.template [Iface.list (ids.map Scalar.int)] = (q, a, none) :=
      sqlxIn_of_expand_ok hq
    refine ⟨q, a, hin, by simpa using hc, by simpa using ha, ?_⟩
    rw [QueryByIds_of_ok db hin]
  · intro db ids hids
    obtain ⟨q, a, hq, hc, ha⟩ := gen QueryAndOrderByIds.template [] 
      [Scalar.str (",".intercalate (QueryAndOrderByIds.loop ids []))] (ids.map Scalar.int) 2
      (map_int_ne_nil hids) (by decide) rfl
    have hin : sqlxIn QueryAndOrderByIds.template (QueryAndOrderByIds.inArgs ids)
        = (q, a, none) := sqlxIn_of_expand_ok hq
    refine ⟨q, a, hin, by simpa [Nat.add_comm] using hc, by simpa [Nat.add_comm] using ha, ?_⟩
    rw [QueryAndOrderByIds_of_ok db hin]

/-- C3 at the template `a=? and b in (?)` with the scalar 5 and the list `[1, 2]`. -/
theorem C3_expansion_counts_witness :
    ∃ q a,
      expand "a=? and b in (?)"
          [Arg.scalar (Scalar.int 5), Arg.list [Scalar.int 1, Scalar.int 2]]
        = Except.ok (q, a)
      ∧ countPlaceholders q = 3 ∧ a.length = 3 :=
  C3_expansion_counts.1 "a=? and b in (?)" [Scalar.int 5] [] [Scalar.int 1, Scalar.int 2] 2
    (by decide) (by decide) (by decide)

/-- C4: expanding a template whose only placeholder takes one list of `n >= 1` values
gives the same template with that `?` replaced by `n` `?` joined by a comma, and the list
itself as flat arguments; the round trip of the spec holds literally; and this is the
expansion `QueryByIds` performs, whose result it rebinds and sends to `db.Select`. -/
theorem C4_expansion_single_list :
    (∀ (pre post : String) (vs : List Scalar),
        '?' ∉ pre.data → '?' ∉ post.data → vs ≠ [] →
        expand (pre ++ "?" ++ post) [Arg.list vs]
          = Except.ok (pre ++ ",".intercalate (List.replicate vs.length "?") ++ post, vs))
    ∧ expand "select * from t where id in (?)"
          [Arg.list [Scalar.int 1, Scalar.int 2, Scalar.int 3]]
        = Except.ok ("select * from t where id in (?,?,?)",
            [Scalar.int 1, Scalar.int 2, Scalar.int 3])
    ∧ (∀ (db : DB) (ids : List Int), ids ≠ [] →
        sqlxIn QueryByIds.template [Iface.list (ids.map Scalar.int)]
            = ("select name, age from mysql_demo_user where id in ("
                ++ ",".intercalate (List.replicate ids.length "?") ++ ")",
               ids.map Scalar.int, none)
          ∧ (QueryByIds sqlxIn db ids).1
            = [Call.Select
                (db.Rebind ("select name, age from mysql_demo_user where id in ("
                  ++ ",".intercalate (List.replicate ids.length "?") ++ ")"))
                (ids.map Scalar.int)]) := by
  refine ⟨expand_single, by decide, ?_⟩
  intro db ids hids
  have hq := expand_single "select name, age from mysql_demo_user where id in (" ")"
    (ids.map Scalar.int) (by decide) (by decide) (map_int_ne_nil hids)
  rw [List.length_map] at hq
  have ht : QueryByIds.template
      = "select name, age from mysql_demo_user where id in (" ++ "?" ++ ")" := by decide
  have hin : sqlxIn QueryByIds.template [Iface.list (ids.map Scalar.int)]
      = ("select name, age from mysql_demo_user where id in ("
          ++ ",".intercalate (List.replicate ids.length "?") ++ ")",
         ids.map Scalar.int, none) := by
    apply sqlxIn_of_expand_ok
    rw [ht]
    exact hq
  exact ⟨hin, by rw [QueryByIds_of_ok db hin]⟩

/-- C4 at the template `id in (?)` with the list `[7, 8]`. -/
theorem C4_expansion_single_list_witness :
    expand ("id in (" ++ "?" ++ ")") [Arg.list [Scalar.int 7, Scalar.int 8]]
      = Except.ok ("id in (" ++ ",".intercalate (List.replicate 2 "?") ++ ")",
          [Scalar.int 7, Scalar.int 8]) :=
  C4_expansion_single_list.1 "id in (" ")" [Scalar.int 7, Scalar.int 8]
    (by decide) (by decide) (by decide)

/-- C6: with an empty identifier list the expansion in `QueryByIds` and in
`QueryAndOrderByIds` fails with `EmptyListError`; the operation returns that error with no
records and sends no statement. -/
theorem C6_empty_list_rejected (db : DB) :
    expand QueryByIds.template [Arg.list []] = Except.error GoError.EmptyListError
    ∧ QueryByIds sqlxIn db [] = ([], [], some GoError.EmptyListError)
    ∧ expand QueryAndOrderByIds.template ((QueryAndOrderByIds.inArgs []).map Iface.toArg)
        = Except.error GoError.EmptyListError
    ∧ QueryAndOrderByIds sqlxIn db [] = ([], [], some GoError.EmptyListError) := by
  have h1 : expand QueryByIds.template [Arg.list []]
      = Except.error GoError.EmptyListError := by decide
  have h2 : expand QueryAndOrderByIds.template ((QueryAndOrderByIds.inArgs []).map Iface.toArg)
      = Except.error GoError.EmptyListError := by decide
  refine ⟨h1, ?_, h2, ?_⟩
  · exact QueryByIds_of_error db (sqlxIn_of_expand_error h1)
  · exact QueryAndOrderByIds_of_error db (sqlxIn_of_expand_error h2)

/-- C7: whenever the number of placeholders of the template differs from the number of
arguments, the expansion fails with `ArityMismatchError`; so does the expansion of
`... where a=? and b in (?)` with the single argument 5; and the expansion in
`BatchInsertUsers2`, whose template has three placeholders, fails for every `users` whose
length is not 3. -/
theorem C7_arity_mismatch :
    (∀ (template : String) (args : List Arg),
        countPlaceholders template ≠ args.length →
        expand template args = Except.error GoError.ArityMismatchError)
    ∧ expand "... where a=? and b in (?)" [Arg.scalar (Scalar.int 5)]
        = Except.error GoError.ArityMismatchError
    ∧ countPlaceholders BatchInsertUsers2.template = 3
    ∧ (∀ users : List Iface, users.length ≠ 3 →
        sqlxIn BatchInsertUsers2.template users = ("", [], some GoError.ArityMismatchError)) := by
  have gen : ∀ (template : String) (args : List Arg),
      countPlaceholders template ≠ args.length →
      expand template args = Except.error GoError.ArityMismatchError := by
    intro template args h
    simp [expand, h]
  refine ⟨gen, by decide, by decide, ?_⟩
  intro users h
  apply sqlxIn_of_expand_error
  apply gen
  have h3 : countPlaceholders BatchInsertUsers2.template = 3 := by decide
  rw [h3, List.length_map]
  exact fun e => h e.symm

/-- C7 at the template `a=?` with no argument. -/
theorem C7_arity_mismatch_witness :
    expand "a=?" [] = Except.error GoError.ArityMismatchError :=
  C7_arity_mismatch.1 "a=?" [] (by decide)

/-- C5 (the code departs from it): `BatchInsertUsers2` calls `db.Exec` with whatever
`sqlx.In` returned, whether or not it returned an error; with two users the expansion
fails with `ArityMismatchError` and the empty statement is still sent. `QueryByIds` and
`QueryAndOrderByIds` do return before `db.Select`. -/
theorem C5_BatchInsertUsers2_executes_after_failed_expansion (db : DB) :
    (∀ (sqlIn : InFn) (users : List Iface),
        (BatchInsertUsers2 sqlIn db users).1
          = [Call.Exec (sqlIn BatchInsertUsers2.template users).1
              (sqlIn BatchInsertUsers2.template users).2.1])
    ∧ (sqlxIn BatchInsertUsers2.template
          [Iface.user { Id := 0, Age := 21, Name := "sqlxIn1" },
           Iface.user { Id := 0, Age := 21, Name := "sqlxIn2" }]).2.2
        = some GoError.ArityMismatchError
    ∧ (BatchInsertUsers2 sqlxIn db
          [Iface.user { Id := 0, Age := 21, Name := "sqlxIn1" },
           Iface.user { Id := 0, Age := 21, Name := "sqlxIn2" }]).1
        = [Call.Exec "" []] := by
  have gen : ∀ (sqlIn : InFn) (users : List Iface),
      (BatchInsertUsers2 sqlIn db users).1
        = [Call.Exec (sqlIn BatchInsertUsers2.template users).1
            (sqlIn BatchInsertUsers2.template users).2.1] := by
    intro sqlIn users
    unfold BatchInsertUsers2
    rcases sqlIn BatchInsertUsers2.template users with ⟨q, a, e⟩
    cases hx : db.Exec q a <;> simp [hx]
  have h : sqlxIn BatchInsertUsers2.template
      [Iface.user { Id := 0, Age := 21, Name := "sqlxIn1" },
       Iface.user { Id := 0, Age := 21, Name := "sqlxIn2" }]
      = ("", [], some GoError.ArityMismatchError) := by decide
  refine ⟨gen, by rw [h], ?_⟩
  rw [gen, h]

/-! ## The claim on transactionDemo2 -/

theorem transactionDemo2_exec1_error (tx : Tx) {e : GoError}
    (h1 : tx.Exec transactionDemo2.sqlStr1 [Scalar.int 21] = Except.error e) :
    transactionDemo2 (Except.ok tx)
      = ([TxCall.Exec transactionDemo2.sqlStr1 [Scalar.int 21], TxCall.Rollback], some e) := by
  simp [transactionDemo2, transactionDemo2.body, transactionDemo2.deferred, h1]

theorem transactionDemo2_rows1_error (tx : Tx) {ret1 : SqlResult} {e : GoError}
    (h1 : tx.Exec transactionDemo2.sqlStr1 [Scalar.int 21] = Except.ok ret1)
    (hr1 : ret1.RowsAffected = Except.error e) :
    transactionDemo2 (Except.ok tx)
      = ([TxCall.Exec transactionDemo2.sqlStr1 [Scalar.int 21], TxCall.Rollback], some e) := by
  simp [transactionDemo2, transactionDemo2.body, transactionDemo2.deferred, h1, hr1]

theorem transactionDemo2_rows1_other (tx : Tx) {ret1 : SqlResult} {n : Int}
    (h1 : tx.Exec transactionDemo2.sqlStr1 [Scalar.int 21] = Except.ok ret1)
    (hr1 : ret1.RowsAffected = Except.ok n) (hn : n ≠ 1) :
    transactionDemo2 (Except.ok tx)
      = ([TxCall.Exec transactionDemo2.sqlStr1 [Scalar.int 21], TxCall.Rollback],
          some (GoError.New "RowsAffected != 1, exec1 failed.")) := by
  simp [transactionDemo2, transactionDemo2.body, transactionDemo2.deferred, h1, hr1, hn]

theorem transactionDemo2_exec2_error (tx : Tx) {ret1 : SqlResult} {e : GoError}
    (h1 : tx.Exec transactionDemo2.sqlStr1 [Scalar.int 21] = Except.ok ret1)
    (hr1 : ret1.RowsAffected = Except.ok 1)
    (h2 : tx.Exec transactionDemo2.sqlStr2 [Scalar.int 28] = Except.error e) :
    transactionDemo2 (Except.ok tx)
      = ([TxCall.Exec transactionDemo2.sqlStr1 [Scalar.int 21],
          TxCall.Exec transactionDemo2.sqlStr2 [Scalar.int 28], TxCall.Rollback], some e) := by
  simp [transactionDemo2, transactionDemo2.body, transactionDemo2.deferred, h1, hr1, h2]

theorem transactionDemo2_rows2_error (tx : Tx) {ret1 ret2 : SqlResult} {e : GoError}
    (h1 : tx.Exec transactionDemo2.sqlStr1 [Scalar.int 21] = Except.ok ret1)
    (hr1 : ret1.RowsAffected = Except.ok 1)
    (h2 : tx.Exec transactionDemo2.sqlStr2 [Scalar.int 28] = Except.ok ret2)
    (hr2 : ret2.RowsAffected = Except.error e) :
    transactionDemo2 (Except.ok tx)
      = ([TxCall.Exec transactionDemo2.sqlStr1 [Scalar.int 21],
          TxCall.Exec transactionDemo2.sqlStr2 [Scalar.int 28], TxCall.Rollback], some e) := by
  simp [transactionDemo2, transactionDemo2.body, transactionDemo2.deferred, h1, hr1, h2, hr2]

theorem transactionDemo2_rows2_other (tx : Tx) {ret1 ret2 : SqlResult} {n : Int}
    (h1 : tx.Exec transactionDemo2.sqlStr1 [Scalar.int 21] = Except.ok ret1)
    (hr1 : ret1.RowsAffected = Except.ok 1)
    (h2 : tx.Exec transactionDemo2.sqlStr2 [Scalar.int 28] = Except.ok ret2)
    (hr2 : ret2.RowsAffected = Except.ok n) (hn : n ≠ 1) :
    transactionDemo2 (Except.ok tx)
      = ([TxCall.Exec transactionDemo2.sqlStr1 [Scalar.int 21],
          TxCall.Exec transactionDemo2.sqlStr2 [Scalar.int 28], TxCall.Rollback],
          some (GoError.New "RowsAffected != 1, exec2 failed.")) := by
  simp [transactionDemo2, transactionDemo2.body, transactionDemo2.deferred, h1, hr1, h2, hr2, hn]

theorem transactionDemo2_both_updated (tx : Tx) {ret1 ret2 : SqlResult}
    (h1 : tx.Exec transactionDemo2.sqlStr1 [Scalar.int 21] = Except.ok ret1)
    (hr1 : ret1.RowsAffected = Except.ok 1)
    (h2 : tx.Exec transactionDemo2.sqlStr2 [Scalar.int 28] = Except.ok ret2)
    (hr2 : ret2.RowsAffected = Except.ok 1) :
    transactionDemo2 (Except.ok tx)
      = ([TxCall.Exec transactionDemo2.sqlStr1 [Scalar.int 21],
          TxCall.Exec transactionDemo2.sqlStr2 [Scalar.int 28], TxCall.Commit],
          tx.Commit) := by
  simp [transactionDemo2, transactionDemo2.body, transactionDemo2.deferred, h1, hr1, h2, hr2]

/-- The two ways `transactionDemo2` ends after a successful `Beginx`: both updates went
through and it commits, or the body stopped on an error and it rolls back. -/
theorem transactionDemo2_cases (tx : Tx) :
    (transactionDemo2 (Except.ok tx)
        = ([TxCall.Exec transactionDemo2.sqlStr1 [Scalar.int 21],
            TxCall.Exec transactionDemo2.sqlStr2 [Scalar.int 28], TxCall.Commit], tx.Commit)
      ∧ (transactionDemo2.body tx).2 = none
      ∧ ∃ ret1 ret2, tx.Exec transactionDemo2.sqlStr1 [Scalar.int 21] = Except.ok ret1
          ∧ ret1.RowsAffected = Except.ok 1
          ∧ tx.Exec transactionDemo2.sqlStr2 [Scalar.int 28] = Except.ok ret2
          ∧ ret2.RowsAffected = Except.ok 1)
    ∨ ∃ e calls, transactionDemo2 (Except.ok tx) = (calls, some e)
        ∧ (transactionDemo2.body tx).2 = some e
        ∧ (calls = [TxCall.Exec transactionDemo2.sqlStr1 [Scalar.int 21], TxCall.Rollback]
          ∨ calls = [TxCall.Exec transactionDemo2.sqlStr1 [Scalar.int 21],
              TxCall.Exec transactionDemo2.sqlStr2 [Scalar.int 28], TxCall.Rollback])
        ∧ ¬ ((∃ ret1, tx.Exec transactionDemo2.sqlStr1 [Scalar.int 21] = Except.ok ret1
              ∧ ret1.RowsAffected = Except.ok 1)
            ∧ ∃ ret2, tx.Exec transactionDemo2.sqlStr2 [Scalar.int 28] = Except.ok ret2
              ∧ ret2.RowsAffected = Except.ok 1) := by
  rcases h1 : tx.Exec transactionDemo2.sqlStr1 [Scalar.int 21] with e | ret1
  · right
    exact ⟨e, _, transactionDemo2_exec1_error tx h1,
      by simp [transactionDemo2.body, h1], Or.inl rfl, by simp⟩
  rcases hr1 : ret1.RowsAffected with e | n
  · right
    refine ⟨e, _, transactionDemo2_rows1_error tx h1 hr1,
      by simp [transactionDemo2.body, h1, hr1], Or.inl rfl, ?_⟩
    rintro ⟨⟨r, hr, hrr⟩, _⟩
    cases hr
    rw [hr1] at hrr
    cases hrr
  by_cases hn : n = 1
  swap
  · right
    refine ⟨_, _, transactionDemo2_rows1_other tx h1 hr1 hn,
      by simp [transactionDemo2.body, h1, hr1, hn], Or.inl rfl, ?_⟩
    rintro ⟨⟨r, hr, hrr⟩, _⟩
    cases hr
    rw [hr1] at hrr
    cases hrr
    exact hn rfl
  subst hn
  rcases h2 : tx.Exec transactionDemo2.sqlStr2 [Scalar.int 28] with e | ret2
  · right
    exact ⟨e, _, transactionDemo2_exec2_error tx h1 hr1 h2,
      by simp [transactionDemo2.body, h1, hr1, h2], Or.inr rfl, by simp⟩
  rcases hr2 : ret2.RowsAffected with e | m
  · right
    refine ⟨e, _, transactionDemo2_rows2_error tx h1 hr1 h2 hr2,
      by simp [transactionDemo2.body, h1, hr1, h2, hr2], Or.inr rfl, ?_⟩
    rintro ⟨_, r, hr, hrr⟩
    cases hr
    rw [hr2] at hrr
    cases hrr
  by_cases hm : m = 1
  swap
  · right
    refine ⟨_, _, transactionDemo2_rows2_other tx h1 hr1 h2 hr2 hm,
      by simp [transactionDemo2.body, h1, hr1, h2, hr2, hm], Or.inr rfl, ?_⟩
    rintro ⟨_, r, hr, hrr⟩
    cases hr
    rw [hr2] at hrr
    cases hrr
    exact hm rfl
  subst hm
  left
  exact ⟨transactionDemo2_both_updated tx h1 hr1 h2 hr2,
    by simp [transactionDemo2.body, h1, hr1, h2, hr2], ret1, ret2, rfl, hr1, rfl, hr2⟩


/-- C8: once `Beginx` has succeeded (and nothing panics), `transactionDemo2` calls exactly
one of `Commit` and `Rollback`, once; it commits if and only if both `Exec` calls and both
`RowsAffected` calls succeed and each reports exactly one row, and then returns the
result of `Commit`; otherwise it rolls back and returns, unchanged, the error that made
it stop: the error of the failing call, or the error it built for a row count other
than 1. -/
theorem C8_transactionDemo2_commit_xor_rollback (tx : Tx) :
    (transactionDemo2 (Except.ok tx)).1.count TxCall.Commit
        + (transactionDemo2 (Except.ok tx)).1.count TxCall.Rollback = 1
    ∧ (TxCall.Commit ∈ (transactionDemo2 (Except.ok tx)).1 ↔
        ((∃ ret1, tx.Exec transactionDemo2.sqlStr1 [Scalar.int 21] = Except.ok ret1
            ∧ ret1.RowsAffected = Except.ok 1)
          ∧ ∃ ret2, tx.Exec transactionDemo2.sqlStr2 [Scalar.int 28] = Except.ok ret2
            ∧ ret2.RowsAffected = Except.ok 1))
    ∧ (TxCall.Commit ∈ (transactionDemo2 (Except.ok tx)).1 →
        (transactionDemo2 (Except.ok tx)).2 = tx.Commit)
    ∧ (TxCall.Rollback ∈ (transactionDemo2 (Except.ok tx)).1 →
        ∃ e, (transactionDemo2.body tx).2 = some e
          ∧ (transactionDemo2 (Except.ok tx)).2 = some e)
    ∧ (∀ e, tx.Exec transactionDemo2.sqlStr1 [Scalar.int 21] = Except.error e →
        transactionDemo2 (Except.ok tx)
          = ([TxCall.Exec transactionDemo2.sqlStr1 [Scalar.int 21], TxCall.Rollback], some e))
    ∧ (∀ ret1 e, tx.Exec transactionDemo2.sqlStr1 [Scalar.int 21] = Except.ok ret1 →
        ret1.RowsAffected = Except.error e →
        transactionDemo2 (Except.ok tx)
          = ([TxCall.Exec transactionDemo2.sqlStr1 [Scalar.int 21], TxCall.Rollback], some e))
    ∧ (∀ ret1 n, tx.Exec transactionDemo2.sqlStr1 [Scalar.int 21] = Except.ok ret1 →
        ret1.RowsAffected = Except.ok n → n ≠ 1 →
        transactionDemo2 (Except.ok tx)
          = ([TxCall.Exec transactionDemo2.sqlStr1 [Scalar.int 21], TxCall.Rollback],
              some (GoError.New "RowsAffected != 1, exec1 failed.")))
    ∧ (∀ ret1 e, tx.Exec transactionDemo2.sqlStr1 [Scalar.int 21] = Except.ok ret1 →
        ret1.RowsAffected = Except.ok 1 →
        tx.Exec transactionDemo2.sqlStr2 [Scalar.int 28] = Except.error e →
        transactionDemo2 (Except.ok tx)
          = ([TxCall.Exec transactionDemo2.sqlStr1 [Scalar.int 21],
              TxCall.Exec transactionDemo2.sqlStr2 [Scalar.int 28], TxCall.Rollback], some e))
    ∧ (∀ ret1 ret2 e, tx.Exec transactionDemo2.sqlStr1 [Scalar.int 21] = Except.ok ret1 →
        ret1.RowsAffected = Except.ok 1 →
        tx.Exec transactionDemo2.sqlStr2 [Scalar.int 28] = Except.ok ret2 →
        ret2.RowsAffected = Except.error e →
        transactionDemo2 (Except.ok tx)
          = ([TxCall.Exec transactionDemo2.sqlStr1 [Scalar.int 21],
              TxCall.Exec transactionDemo2.sqlStr2 [Scalar.int 28], TxCall.Rollback], some e))
    ∧ (∀ ret1 ret2 n, tx.Exec transactionDemo2.sqlStr1 [Scalar.int 21] = Except.ok ret1 →
        ret1.RowsAffected = Except.ok 1 →
        tx.Exec transactionDemo2.sqlStr2 [Scalar.int 28] = Except.ok ret2 →
        ret2.RowsAffected = Except.ok n → n ≠ 1 →
        transactionDemo2 (Except.ok tx)
          = ([TxCall.Exec transactionDemo2.sqlStr1 [Scalar.int 21],
              TxCall.Exec transactionDemo2.sqlStr2 [Scalar.int 28], TxCall.Rollback],
              some (GoError.New "RowsAffected != 1, exec2 failed.")))
    ∧ (∀ ret1 ret2, tx.Exec transactionDemo2.sqlStr1 [Scalar.int 21] = Except.ok ret1 →
        ret1.RowsAffected = Except.ok 1 →
        tx.Exec transactionDemo2.sqlStr2 [Scalar.int 28] = Except.ok ret2 →
        ret2.RowsAffected = Except.ok 1 →
        transactionDemo2 (Except.ok tx)
          = ([TxCall.Exec transactionDemo2.sqlStr1 [Scalar.int 21],
              TxCall.Exec transactionDemo2.sqlStr2 [Scalar.int 28], TxCall.Commit],
              tx.Commit)) := by
  refine ⟨?_, ?_, ?_, ?_, fun e h => transactionDemo2_exec1_error tx h,
    fun ret1 e h hr => transactionDemo2_rows1_error tx h hr,
    fun ret1 n h hr hn => transactionDemo2_rows1_other tx h hr hn,
    fun ret1 e h hr h2 => transactionDemo2_exec2_error tx h hr h2,
    fun ret1 ret2 e h hr h2 hr2 => transactionDemo2_rows2_error tx h hr h2 hr2,
    fun ret1 ret2 n h hr h2 hr2 hn => transactionDemo2_rows2_other tx h hr h2 hr2 hn,
    fun ret1 ret2 h hr h2 hr2 => transactionDemo2_both_updated tx h hr h2 hr2⟩
  all_goals
    rcases transactionDemo2_cases tx with
      ⟨h, hb, ret1, ret2, h1, hr1, h2, hr2⟩ | ⟨e, calls, h, hb, hcalls, hnot⟩
  · rw [h]; simp [List.count_cons]
  · rw [h]; rcases hcalls with rfl | rfl <;> simp [List.count_cons]
  · rw [h]
    constructor
    · intro _
      exact ⟨⟨ret1, h1, hr1⟩, ret2, h2, hr2⟩
    · intro _
      simp
  · rw [h]
    constructor
    · intro hmem
      rcases hcalls with rfl | rfl <;> simp at hmem
    · intro hboth
      exact absurd hboth hnot
  · intro _
    rw [h]
  · intro hmem
    rw [h] at hmem
    rcases hcalls with rfl | rfl <;> simp at hmem
  · intro hmem
    rw [h] at hmem
    simp at hmem
  · intro _
    exact ⟨e, hb, by rw [h]⟩

/-- C8 at a transaction whose every `Exec` succeeds with one affected row: it commits. -/
theorem C8_transactionDemo2_commit_xor_rollback_witness :
    transactionDemo2
        (Except.ok { Exec := fun _ _ => Except.ok { RowsAffected := Except.ok 1 },
                     Commit := none, Rollback := none })
      = ([TxCall.Exec transactionDemo2.sqlStr1 [Scalar.int 21],
          TxCall.Exec transactionDemo2.sqlStr2 [Scalar.int 28], TxCall.Commit], none) :=
  (C8_transactionDemo2_commit_xor_rollback
      { Exec := fun _ _ => Except.ok { RowsAffected := Except.ok 1 },
        Commit := none, Rollback := none }).2.2.2.2.2.2.2.2.2.2
    { RowsAffected := Except.ok 1 } { RowsAffected := Except.ok 1 } rfl rfl rfl rfl

/-! ## The claim on namedQuery -/

theorem namedQuery_first_error (db : NamedDB) {e : GoError}
    (h1 : db.NamedQuery namedQuery.sqlStr (NamedArg.map [("name", Scalar.str "沙河娜扎")])
      = Except.error e) :
    namedQuery db = [] := by
  simp [namedQuery, h1]

theorem namedQuery_first_scan_error (db : NamedDB) {rows : Rows}
    (h1 : db.NamedQuery namedQuery.sqlStr (NamedArg.map [("name", Scalar.str "沙河娜扎")])
      = Except.ok rows)
    (hs : namedQuery.scanLoop rows.scans = false) :
    namedQuery db = [CursorEvent.Open 1, CursorEvent.Close 1] := by
  simp [namedQuery, h1, hs, namedQuery.runDeferred]

theorem namedQuery_second_error (db : NamedDB) {rows : Rows} {e : GoError}
    (h1 : db.NamedQuery namedQuery.sqlStr (NamedArg.map [("name", Scalar.str "沙河娜扎")])
      = Except.ok rows)
    (hs : namedQuery.scanLoop rows.scans = true)
    (h2 : db.NamedQuery namedQuery.sqlStr
        (NamedArg.struct { Id := 0, Age := 0, Name := "沙河小王子" }) = Except.error e) :
    namedQuery db = [CursorEvent.Open 1, CursorEvent.Close 1] := by
  simp [namedQuery, h1, hs, h2, namedQuery.runDeferred]

theorem namedQuery_second_opened (db : NamedDB) {rows rows2 : Rows}
    (h1 : db.NamedQuery namedQuery.sqlStr (NamedArg.map [("name", Scalar.str "沙河娜扎")])
      = Except.ok rows)
    (hs : namedQuery.scanLoop rows.scans = true)
    (h2 : db.NamedQuery namedQuery.sqlStr
        (NamedArg.struct { Id := 0, Age := 0, Name := "沙河小王子" }) = Except.ok rows2) :
    namedQuery db
      = [CursorEvent.Open 1, CursorEvent.Open 2, CursorEvent.Close 2, CursorEvent.Close 1] := by
  simp [namedQuery, h1, hs, h2, namedQuery.runDeferred]

theorem namedQuery_shapes (db : NamedDB) :
    namedQuery db = []
      ∨ namedQuery db = [CursorEvent.Open 1, CursorEvent.Close 1]
      ∨ namedQuery db
        = [CursorEvent.Open 1, CursorEvent.Open 2, CursorEvent.Close 2, CursorEvent.Close 1] := by
  rcases h1 : db.NamedQuery namedQuery.sqlStr
      (NamedArg.map [("name", Scalar.str "沙河娜扎")]) with e | rows
  · exact Or.inl (namedQuery_first_error db h1)
  cases hs : namedQuery.scanLoop rows.scans
  · exact Or.inr (Or.inl (namedQuery_first_scan_error db h1 hs))
  rcases h2 : db.NamedQuery namedQuery.sqlStr
      (NamedArg.struct { Id := 0, Age := 0, Name := "沙河小王子" }) with e | rows2
  · exact Or.inr (Or.inl (namedQuery_second_error db h1 hs h2))
  · exact Or.inr (Or.inr (namedQuery_second_opened db h1 hs h2))

/-- C9: in `namedQuery` every cursor opened by a successful `NamedQuery` is closed exactly
once before the function returns, and never before it was opened, on every exit path:
a scan error in the first loop, a failure of the second `NamedQuery`, a scan error in the
second loop, and normal completion; after `rows` has been reassigned both cursors are
closed, the second first. -/
theorem C9_namedQuery_closes_every_cursor (db : NamedDB) :
    (∀ k, (namedQuery db).count (CursorEvent.Close k)
        = (namedQuery db).count (CursorEvent.Open k))
    ∧ (∀ k, (namedQuery db).count (CursorEvent.Open k) ≤ 1)
    ∧ (∀ (k i : Nat), (namedQuery db)[i]? = some (CursorEvent.Close k) →
        ∃ j : Nat, j < i ∧ (namedQuery db)[j]? = some (CursorEvent.Open k))
    ∧ (∀ e, db.NamedQuery namedQuery.sqlStr (NamedArg.map [("name", Scalar.str "沙河娜扎")])
          = Except.error e →
        namedQuery db = [])
    ∧ (∀ rows, db.NamedQuery namedQuery.sqlStr (NamedArg.map [("name", Scalar.str "沙河娜扎")])
          = Except.ok rows →
        namedQuery.scanLoop rows.scans = false →
        namedQuery db = [CursorEvent.Open 1, CursorEvent.Close 1])
    ∧ (∀ rows e, db.NamedQuery namedQuery.sqlStr (NamedArg.map [("name", Scalar.str "沙河娜扎")])
          = Except.ok rows →
        namedQuery.scanLoop rows.scans = true →
        db.NamedQuery namedQuery.sqlStr
            (NamedArg.struct { Id := 0, Age := 0, Name := "沙河小王子" }) = Except.error e →
        namedQuery db = [CursorEvent.Open 1, CursorEvent.Close 1])
    ∧ (∀ rows rows2 (completed : Bool),
        db.NamedQuery namedQuery.sqlStr (NamedArg.map [("name", Scalar.str "沙河娜扎")])
          = Except.ok rows →
        namedQuery.scanLoop rows.scans = true →
        db.NamedQuery namedQuery.sqlStr
            (NamedArg.struct { Id := 0, Age := 0, Name := "沙河小王子" }) = Except.ok rows2 →
        namedQuery.scanLoop rows2.scans = completed →
        namedQuery db
          = [CursorEvent.Open 1, CursorEvent.Open 2, CursorEvent.Close 2,
              CursorEvent.Close 1]) := by
  refine ⟨?_, ?_, ?_, fun e h => namedQuery_first_error db h,
    fun rows h hs => namedQuery_first_scan_error db h hs,
    fun rows e h hs h2 => namedQuery_second_error db h hs h2,
    fun rows rows2 _ h hs h2 _ => namedQuery_second_opened db h hs h2⟩
  · intro k
    rcases namedQuery_shapes db with h | h | h <;> rw [h]
    · rfl
    · by_cases hk : k = 1 <;> simp [List.count_cons, hk]
    · by_cases hk1 : k = 1
      · subst hk1; simp [List.count_cons]
      · by_cases hk2 : k = 2
        · subst hk2; simp [List.count_cons]
        · have e1 : ¬ (1 = k) := fun e => hk1 e.symm
          have e2 : ¬ (2 = k) := fun e => hk2 e.symm
          simp [List.count_cons, e1, e2]
  · intro k
    rcases namedQuery_shapes db with h | h | h <;> rw [h]
    · simp
    · by_cases hk : k = 1 <;> simp [List.count_cons, hk]
    · by_cases hk1 : k = 1
      · subst hk1; simp [List.count_cons]
      · by_cases hk2 : k = 2
        · subst hk2; simp [List.count_cons]
        · have e1 : ¬ (1 = k) := fun e => hk1 e.symm
          have e2 : ¬ (2 = k) := fun e => hk2 e.symm
          simp [List.count_cons, e1, e2]
  · intro k i hi
    rcases namedQuery_shapes db with h | h | h <;> rw [h] at hi ⊢
    · simp at hi
    · rcases i with _ | _ | i
      · simp at hi
      · simp at hi
        exact ⟨0, by omega, by subst hi; rfl⟩
      · simp at hi
    · rcases i with _ | _ | _ | _ | i
      · simp at hi
      · simp at hi
      · simp at hi
        exact ⟨1, by omega, by subst hi; rfl⟩
      · simp at hi
        exact ⟨0, by omega, by subst hi; rfl⟩
      · simp at hi

/-- C9 at a database whose first cursor has one good row and whose second `NamedQuery`
fails: the first cursor is opened and closed. -/
theorem C9_namedQuery_closes_every_cursor_witness :
    namedQuery
        { NamedQuery := fun _ arg =>
            match arg with
            | NamedArg.map _ =>
              Except.ok { scans := [Except.ok { Id := 1, Age := 2, Name := "n" }] }
            | NamedArg.struct _ => Except.error (GoError.External "gone") }
      = [CursorEvent.Open 1, CursorEvent.Close 1] :=
  (C9_namedQuery_closes_every_cursor
      { NamedQuery := fun _ arg =>
          match arg with
          | NamedArg.map _ =>
            Except.ok { scans := [Except.ok { Id := 1, Age := 2, Name := "n" }] }
          | NamedArg.struct _ => Except.error (GoError.External "gone") }).2.2.2.2.2.1
    { scans := [Except.ok { Id := 1, Age := 2, Name := "n" }] } (GoError.External "gone")
    rfl rfl rfl

/-! ## The claim on the ordering argument of QueryAndOrderByIds -/

theorem digitChar_isDigit (d : Nat) (h : d < 10) :
    (Nat.digitChar d).isDigit = true ∧ (Nat.digitChar d).toNat - 48 = d := by
  interval_cases d <;> decide

theorem toDigitsCore_digits (f n : Nat) (acc : List Char) (c : Char)
    (hc : c ∈ Nat.toDigitsCore 10 f n acc) : c.isDigit = true ∨ c ∈ acc := by
  induction f generalizing n acc with
  | zero => exact Or.inr (by simpa [Nat.toDigitsCore] using hc)
  | succ f ih =>
    have hd := (digitChar_isDigit (n % 10) (Nat.mod_lt _ (by decide))).1
    simp only [Nat.toDigitsCore] at hc
    split at hc
    · rcases List.mem_cons.1 hc with h | h
      · exact Or.inl (h ▸ hd)
      · exact Or.inr h
    · rcases ih _ _ hc with h | h
      · exact Or.inl h
      · rcases List.mem_cons.1 h with h | h
        · exact Or.inl (h ▸ hd)
        · exact Or.inr h

theorem repr_digits (n : Nat) (c : Char) (hc : c ∈ (Nat.repr n).data) : c.isDigit = true := by
  rcases toDigitsCore_digits (n + 1) n [] c (by simpa [Nat.repr, Nat.toDigits] using hc) with h | h
  · exact h
  · simp at h

theorem toDigitsCore_value (f n : Nat) (acc : List Char) (h : n < f) :
    (Nat.toDigitsCore 10 f n acc).foldl digitValue 0 = acc.foldl digitValue n := by
  induction f generalizing n acc with
  | zero => omega
  | succ f ih =>
    have hd := (digitChar_isDigit (n % 10) (Nat.mod_lt _ (by decide))).2
    simp only [Nat.toDigitsCore]
    split
    · rename_i h0
      simp only [List.foldl_cons, digitValue, hd]
      congr 1
      omega
    · rename_i h0
      rw [ih (n / 10) _ (by omega)]
      simp only [List.foldl_cons, digitValue, hd]
      congr 1
      omega

theorem repr_value (n : Nat) : (Nat.repr n).data.foldl digitValue 0 = n := by
  show (Nat.toDigitsCore 10 (n + 1) n []).foldl digitValue 0 = n
  rw [toDigitsCore_value (n + 1) n [] (by omega)]
  rfl

theorem repr_injective {m n : Nat} (h : Nat.repr m = Nat.repr n) : m = n := by
  rw [← repr_value m, ← repr_value n, h]

theorem sprintfD_ofNat (m : Nat) : sprintfD (Int.ofNat m) = Nat.repr m := rfl
theorem sprintfD_negSucc (m : Nat) : sprintfD (Int.negSucc m) = "-" ++ Nat.repr (m + 1) := rfl

theorem sprintfD_no_comma (id : Int) : ',' ∉ (sprintfD id).data := by
  intro h
  cases id with
  | ofNat m =>
    rw [sprintfD_ofNat] at h
    have := repr_digits m ',' h
    exact absurd this (by decide)
  | negSucc m =>
    rw [sprintfD_negSucc, String.data_append] at h
    rcases List.mem_append.1 h with h | h
    · exact absurd h (by decide)
    · exact absurd (repr_digits _ ',' h) (by decide)

theorem sprintfD_injective {a b : Int} (h : sprintfD a = sprintfD b) : a = b := by
  have hminus : ∀ m k : Nat, Nat.repr m ≠ "-" ++ Nat.repr k := by
    intro m k e
    have hmem : '-' ∈ (Nat.repr m).data := by
      rw [e, String.data_append]
      exact List.mem_append_left _ (by decide)
    exact absurd (repr_digits m '-' hmem) (by decide)
  cases a with
  | ofNat m =>
    cases b with
    | ofNat k =>
      rw [sprintfD_ofNat, sprintfD_ofNat] at h
      rw [repr_injective h]
    | negSucc k =>
      rw [sprintfD_ofNat, sprintfD_negSucc] at h
      exact absurd h (hminus _ _)
  | negSucc m =>
    cases b with
    | ofNat k =>
      rw [sprintfD_ofNat, sprintfD_negSucc] at h
      exact absurd h.symm (hminus _ _)
    | negSucc k =>
      rw [sprintfD_negSucc, sprintfD_negSucc] at h
      have h2 : (Nat.repr (m + 1)).data = (Nat.repr (k + 1)).data := by
        have := congrArg String.data h
        simpa [String.data_append] using this
      have h3 : m + 1 = k + 1 := repr_injective (String.ext h2)
      have : m = k := by omega
      rw [this]

theorem sprintfD_ne_empty (id : Int) : (sprintfD id).data ≠ [] := by
  intro h
  cases id with
  | ofNat m =>
    rw [sprintfD_ofNat] at h
    have hv := repr_value m
    rw [h] at hv
    have hm : m = 0 := hv.symm
    subst hm
    exact absurd h (by decide)
  | negSucc m =>
    rw [sprintfD_negSucc, String.data_append] at h
    exact absurd h (by simp)

theorem splitComma_no_comma (f : List Char) (h : ',' ∉ f) : splitComma f = [f] := by
  induction f with
  | nil => rfl
  | cons c cs ih =>
    have hc : c ≠ ',' := fun e => h (by simp [e])
    have hcs : ',' ∉ cs := fun e => h (List.mem_cons_of_mem _ e)
    simp [splitComma, hc, ih hcs]

theorem splitComma_append_comma (f t : List Char) (h : ',' ∉ f) :
    splitComma (f ++ ',' :: t) = f :: splitComma t := by
  induction f with
  | nil => simp [splitComma]
  | cons c cs ih =>
    have hc : c ≠ ',' := fun e => h (by simp [e])
    have hcs : ',' ∉ cs := fun e => h (List.mem_cons_of_mem _ e)
    simp [splitComma, hc, ih hcs]

theorem intercalate_cons_cons (sep f g : List Char) (rest : List (List Char)) :
    sep.intercalate (f :: g :: rest) = f ++ sep ++ sep.intercalate (g :: rest) := by
  simp [List.intercalate, List.intersperse]

theorem splitComma_intercalate (fs : List (List Char)) (hne : fs ≠ [])
    (h : ∀ f ∈ fs, ',' ∉ f) : splitComma ([','].intercalate fs) = fs := by
  induction fs with
  | nil => exact absurd rfl hne
  | cons f rest ih =>
    cases rest with
    | nil =>
      have : [','].intercalate [f] = f := by simp [List.intercalate, List.intersperse]
      rw [this]
      exact splitComma_no_comma f (h f (by simp))
    | cons g rest =>
      rw [intercalate_cons_cons]
      have hf : ',' ∉ f := h f (by simp)
      have hrest : ∀ x ∈ g :: rest, ',' ∉ x := fun x hx => h x (List.mem_cons_of_mem _ hx)
      have e : f ++ [','] ++ [','].intercalate (g :: rest)
          = f ++ ',' :: [','].intercalate (g :: rest) := by simp
      rw [e, splitComma_append_comma _ _ hf, ih (by simp) hrest]

theorem intercalate_go_data (sep : String) (xs : List String) (acc : String) :
    (String.intercalate.go acc sep xs).data
      = acc.data ++ (xs.map (fun x => sep.data ++ x.data)).flatten := by
  induction xs generalizing acc with
  | nil => simp [String.intercalate.go]
  | cons x xs ih =>
    simp [String.intercalate.go, ih, String.data_append, List.append_assoc]

theorem list_intercalate_cons (sep f : List Char) (rest : List (List Char)) :
    sep.intercalate (f :: rest) = f ++ (rest.map (fun x => sep ++ x)).flatten := by
  induction rest generalizing f with
  | nil => simp [List.intercalate, List.intersperse]
  | cons g rest ih =>
    rw [intercalate_cons_cons, ih]
    simp [List.append_assoc]

theorem intercalate_data (sep : String) (xs : List String) :
    (sep.intercalate xs).data = sep.data.intercalate (xs.map String.data) := by
  cases xs with
  | nil => rfl
  | cons x xs =>
    simp only [String.intercalate, intercalate_go_data, List.map_cons, list_intercalate_cons,
      List.map_map]
    rfl

theorem indexOf_map_injective {α β : Type} [BEq α] [LawfulBEq α] [BEq β] [LawfulBEq β]
    (f : α → β)
    (hf : ∀ a b, f a = f b → a = b) (xs : List α) (x : α) :
    (xs.map f).indexOf (f x) = xs.indexOf x := by
  induction xs with
  | nil => rfl
  | cons y ys ih =>
    rw [List.map_cons, List.indexOf_cons, List.indexOf_cons, ih]
    by_cases h : y = x
    · subst h
      simp
    · have h2 : f y ≠ f x := fun e => h (hf _ _ e)
      have b1 : (y == x) = false := by simpa using h
      have b2 : (f y == f x) = false := by simpa using h2
      rw [b1, b2]

theorem QueryAndOrderByIds.loop_eq (ids : List Int) (strIds : List String) :
    QueryAndOrderByIds.loop ids strIds = strIds ++ ids.map sprintfD := by
  induction ids generalizing strIds with
  | nil => simp [QueryAndOrderByIds.loop]
  | cons id ids ih => simp [QueryAndOrderByIds.loop, ih]

theorem splitComma_joined (ids : List Int) (hne : ids ≠ []) :
    splitComma (",".intercalate (ids.map sprintfD)).data
      = ids.map (fun id => (sprintfD id).data) := by
  rw [intercalate_data, List.map_map]
  have e : (",".data : List Char) = [','] := rfl
  rw [e]
  apply splitComma_intercalate
  · simpa using hne
  · intro f hf
    obtain ⟨id, _, rfl⟩ := List.mem_map.1 hf
    exact sprintfD_no_comma id

theorem joined_ne_empty (ids : List Int) (hne : ids ≠ []) :
    ",".intercalate (ids.map sprintfD) ≠ "" := by
  intro h
  have hs := splitComma_joined ids hne
  rw [h] at hs
  cases ids with
  | nil => exact hne rfl
  | cons id rest =>
    cases rest with
    | nil =>
      have : ([[]] : List (List Char)) = [(sprintfD id).data] := hs
      have h2 : (sprintfD id).data = [] := by
        simpa using this.symm
      exact sprintfD_ne_empty id h2
    | cons id2 rest =>
      have : ([[]] : List (List Char)).length = 
          ((id :: id2 :: rest).map (fun id => (sprintfD id).data)).length := by
        rw [← hs]; rfl
      simp at this

theorem expand_list_scalar (pre mid post : String) (vs : List Scalar) (v : Scalar)
    (hpre : '?' ∉ pre.data) (hmid : '?' ∉ mid.data) (hpost : '?' ∉ post.data)
    (hvs : vs ≠ []) :
    expand (pre ++ "?" ++ mid ++ "?" ++ post) [Arg.list vs, Arg.scalar v]
      = Except.ok (pre ++ ",".intercalate (List.replicate vs.length "?") ++ mid ++ "?" ++ post,
          vs ++ [v]) := by
  have hdata : (pre ++ "?" ++ mid ++ "?" ++ post).data
      = pre.data ++ '?' :: (mid.data ++ '?' :: post.data) := by
    simp [String.data_append]
  have hcount : countPlaceholders (pre ++ "?" ++ mid ++ "?" ++ post) = 2 := by
    simp [countPlaceholders, hdata, List.count_append, List.count_eq_zero_of_not_mem hpre,
      List.count_eq_zero_of_not_mem hmid, List.count_eq_zero_of_not_mem hpost]
  have hne : Arg.isEmptyList (Arg.list vs) = false := by
    cases vs with
    | nil => exact absurd rfl hvs
    | cons v vs => rfl
  have hscan : expandChars (pre.data ++ '?' :: (mid.data ++ '?' :: post.data))
      [Arg.list vs, Arg.scalar v]
      = (pre.data ++ (placeholders vs.length ++ (mid.data ++ '?' :: post.data)), vs ++ [v]) := by
    rw [expandChars_append _ _ hpre]
    simp [expandChars, expandChars_append _ _ hmid, expandChars_no_placeholder _ hpost]
  have hs : Arg.isEmptyList (Arg.scalar v) = false := rfl
  have hany : [Arg.list vs, Arg.scalar v].any Arg.isEmptyList = false := by
    simp only [List.any_cons, hne, hs, List.any_nil, Bool.or_false]
  have hlen : [Arg.list vs, Arg.scalar v].length = 2 := rfl
  simp only [expand, hcount, hlen, ne_eq, not_true_eq_false, if_false, hany, hdata, hscan,
    Bool.false_eq_true]
  congr 2
  apply String.ext
  simp [String.data_append, intercalate_replicate_data]

/-- C2: `QueryAndOrderByIds` hands to `sqlx.In`, as the argument of the second placeholder
(the one of `FIND_IN_SET(id,?)`), the decimal renderings of the ids joined by `,`, in
input order and parallel to the IN-list, and sends to `db.Select` the statement and the
arguments that come back; after the expansion that string is the last bind argument,
the one of `FIND_IN_SET(id,?)`. For every id of the list, the position `FIND_IN_SET`
finds for its rendering in that string is the 1-based position of the first occurrence of
the id in the list. -/
theorem C2_order_argument_positions (ids : List Int) :
    QueryAndOrderByIds.inArgs ids
        = [Iface.list (ids.map Scalar.int),
           Iface.scalar (Scalar.str (",".intercalate (ids.map sprintfD)))]
    ∧ (∀ (sqlIn : InFn) (db : DB) (q : String) (a : List Scalar),
        sqlIn QueryAndOrderByIds.template
            [Iface.list (ids.map Scalar.int),
             Iface.scalar (Scalar.str (",".intercalate (ids.map sprintfD)))] = (q, a, none) →
        QueryAndOrderByIds sqlIn db ids
          = ([Call.Select (db.Rebind q) a], (db.Select (db.Rebind q) a).1,
              (db.Select (db.Rebind q) a).2))
    ∧ (∀ db : DB, ids ≠ [] →
        QueryAndOrderByIds sqlxIn db ids
          = ([Call.Select
                (db.Rebind ("select name, age from mysql_demo_user where id in ("
                  ++ ",".intercalate (List.replicate ids.length "?")
                  ++ ") \n\t\torder by FIND_IN_SET(id," ++ "?" ++ ")"))
                (ids.map Scalar.int ++ [Scalar.str (",".intercalate (ids.map sprintfD))])],
              (db.Select
                (db.Rebind ("select name, age from mysql_demo_user where id in ("
                  ++ ",".intercalate (List.replicate ids.length "?")
                  ++ ") \n\t\torder by FIND_IN_SET(id," ++ "?" ++ ")"))
                (ids.map Scalar.int ++ [Scalar.str (",".intercalate (ids.map sprintfD))])).1,
              (db.Select
                (db.Rebind ("select name, age from mysql_demo_user where id in ("
                  ++ ",".intercalate (List.replicate ids.length "?")
                  ++ ") \n\t\torder by FIND_IN_SET(id," ++ "?" ++ ")"))
                (ids.map Scalar.int ++ [Scalar.str (",".intercalate (ids.map sprintfD))])).2))
    ∧ (ids ≠ [] →
        splitComma (",".intercalate (ids.map sprintfD)).data
          = ids.map (fun id => (sprintfD id).data))
    ∧ (∀ id ∈ ids,
        FIND_IN_SET (sprintfD id) (",".intercalate (ids.map sprintfD)) = ids.indexOf id + 1) := by
  have hargs : QueryAndOrderByIds.inArgs ids
      = [Iface.list (ids.map Scalar.int),
         Iface.scalar (Scalar.str (",".intercalate (ids.map sprintfD)))] := by
    simp [QueryAndOrderByIds.inArgs, QueryAndOrderByIds.loop_eq]
  refine ⟨hargs, ?_, ?_, splitComma_joined ids, ?_⟩
  · intro sqlIn db q a h
    have hin : sqlIn QueryAndOrderByIds.template (QueryAndOrderByIds.inArgs ids)
        = (q, a, none) := by rw [hargs]; exact h
    simp [QueryAndOrderByIds, hin]
  · intro db hne
    have hin : sqlxIn QueryAndOrderByIds.template (QueryAndOrderByIds.inArgs ids)
        = ("select name, age from mysql_demo_user where id in ("
            ++ ",".intercalate (List.replicate ids.length "?")
            ++ ") \n\t\torder by FIND_IN_SET(id," ++ "?" ++ ")",
           ids.map Scalar.int ++ [Scalar.str (",".intercalate (ids.map sprintfD))], none) := by
      apply sqlxIn_of_expand_ok
      rw [hargs]
      have ht : QueryAndOrderByIds.template
          = "select name, age from mysql_demo_user where id in (" ++ "?"
            ++ ") \n\t\torder by FIND_IN_SET(id," ++ "?" ++ ")" := by decide
      have hq := expand_list_scalar "select name, age from mysql_demo_user where id in ("
        ") \n\t\torder by FIND_IN_SET(id," ")" (ids.map Scalar.int)
        (Scalar.str (",".intercalate (ids.map sprintfD))) (by decide) (by decide) (by decide)
        (map_int_ne_nil hne)
      rw [List.length_map] at hq
      rw [ht]
      exact hq
    simp [QueryAndOrderByIds, hin]
  · intro id hid
    have hne : ids ≠ [] := List.ne_nil_of_mem hid
    have hmem : (sprintfD id).data ∈ ids.map (fun id => (sprintfD id).data) :=
      List.mem_map.2 ⟨id, hid, rfl⟩
    have hinj : ∀ a b : Int, (sprintfD a).data = (sprintfD b).data → a = b :=
      fun a b e => sprintfD_injective (String.ext e)
    unfold FIND_IN_SET
    rw [if_neg (joined_ne_empty ids hne), splitComma_joined ids hne, if_pos hmem,
      indexOf_map_injective (fun id => (sprintfD id).data) hinj]

/-- C2 at the list `[21,30,22,32,23,33]` of `main`: the statement and the arguments sent
to `db.Select`, whose last argument is `21,30,22,32,23,33`, and the position 3 of the
third id, 22. -/
theorem C2_order_argument_positions_witness :
    (QueryAndOrderByIds sqlxIn
        { Rebind := fun q => q, Exec := fun _ _ => none, Select := fun _ _ => ([], none) }
        [21, 30, 22, 32, 23, 33]).1
      = [Call.Select
          "select name, age from mysql_demo_user where id in (?,?,?,?,?,?) \n\t\torder by FIND_IN_SET(id,?)"
          [Scalar.int 21, Scalar.int 30, Scalar.int 22, Scalar.int 32, Scalar.int 23,
           Scalar.int 33, Scalar.str "21,30,22,32,23,33"]]
    ∧ FIND_IN_SET "22" "21,30,22,32,23,33" = 3 :=
  ⟨congrArg Prod.fst
      ((C2_order_argument_positions [21, 30, 22, 32, 23, 33]).2.2.1
        { Rebind := fun q => q, Exec := fun _ _ => none, Select := fun _ _ => ([], none) }
        (by decide)),
    (C2_order_argument_positions [21, 30, 22, 32, 23, 33]).2.2.2.2 22 (by decide)⟩

end SqlxDemo
